import Mathlib

/-!
Verification of the BLAS-1 multivector kernels in
`src/src/impl/Kokkos_Blas1_MV_impl.hpp` (namespace `KokkosBlas::Impl`):
the batched dot-product dispatcher `Dot_MV::dot`, its single-column-pair
overload, the squared-2-norm dispatcher `Nrm2_MV::nrm2_squared`, the fill
dispatcher `Fill_MV::fill`, and their reduction functors.

Modelling conventions:
* The instantiated specializations of these kernels use `Scalar = double`
  (a real scalar type), for which `InnerProductSpaceTraits::dot (x, y)` is
  the plain product `x * y` (conjugation is the identity on reals) and
  `InnerProductSpaceTraits::norm` is the absolute value.  We model real
  arithmetic exactly with `Int`, so "numerically equivalent within a
  tolerance" statements become exact equalities.
* `Kokkos::parallel_reduce` / `parallel_for` over the index range `[0, n)`
  is modelled by its sequential schedule: `init`, then the functor's
  `operator()` at `i = 0, 1, ..., n-1`, then `final` (the spec only
  guarantees results numerically equivalent to this schedule).  With `n = 0`
  the primitive still runs `init` and `final`.
* A 2-D view is a `MultiVector`: explicit `numRows`/`numCols` plus a total
  entry function; a 1-D result view is a function `Nat → Int`, written
  functionally.
* Machine index types: `size_type` is 64-bit `size_t`, so the product
  `numRows * numCols` computed in the overflow checks is taken modulo
  `2 ^ 64`; `INT_MAX` is `2147483647`.  The narrow/wide index-type choice
  made at each dispatch site is recorded by explicit `IndexWidth` functions.
  Where a dispatcher constructs `RangePolicy<execution_space, int>` on a
  `size_type` row count (`nrm2_squared` does so in BOTH branches, lines 985
  and 991), the bound is converted to 32-bit signed `int` with two's
  complement wraparound, and a non-positive converted bound yields an empty
  iteration range; this conversion is modelled by `int32RangeCount`.
-/

namespace KokkosBlasModel

/-- A dense multivector: a `numRows × numCols` array of scalars (2-D view).
Entries outside the shape are carried by the total function but never
touched by the kernels. -/
structure MultiVector where
  numRows : Nat
  numCols : Nat
  entry : Nat → Nat → Int

/-- `Kokkos::Details::InnerProductSpaceTraits<double>::dot (x, y)`:
for the real scalar type of the instantiated kernels this is `x * y`
(the conjugate of a real number is itself). -/
def iptDot (x y : Int) : Int := x * y

/-- `Kokkos::Details::InnerProductSpaceTraits<double>::norm (x)`:
the magnitude `|x|` of a real scalar. -/
def iptNorm (x : Int) : Int := |x|

/-- Sequential schedule of a Kokkos range iteration over `[0, n)`:
apply `step` at indices `0, 1, ..., n-1` in increasing order. -/
def seqReduce {α : Type} (n : Nat) (step : Nat → α → α) (a : α) : α :=
  match n with
  | 0 => a
  | Nat.succ m => step m (seqReduce m step a)

/-- Sequential left-to-right sum `f 0 + f 1 + ... + f (n-1)`; the
spec-side "sequential inner product" accumulation. -/
def sumRange (n : Nat) (f : Nat → Int) : Int :=
  match n with
  | 0 => 0
  | Nat.succ m => sumRange m f + f m

/-- Write `v` into slot `k` of a 1-D result view. -/
def writeAt (r : Nat → Int) (k : Nat) (v : Int) : Nat → Int :=
  fun j => if j = k then v else r j

/-- `INT_MAX` (the narrow fast index type `int` is 32-bit signed). -/
def intMax : Nat := 2147483647

/-- Cardinality of the wide index type `size_t` (64-bit): arithmetic on
`size_type` values wraps modulo this. -/
def sizeTypeModulus : Nat := 18446744073709551616

/-- Conversion of a 64-bit `size_type` value to the 32-bit signed `int`
(two's complement wraparound, as on every supported platform). -/
def toInt32 (n : Nat) : Int :=
  if n % 4294967296 < 2147483648 then ((n % 4294967296 : Nat) : Int)
  else ((n % 4294967296 : Nat) : Int) - 4294967296

/-- Number of iterations performed by
`Kokkos::RangePolicy<execution_space, int> (0, numRows)` when `numRows`
has type `size_type`: the upper bound is converted to `int`; a
non-positive converted bound gives an empty range. -/
def int32RangeCount (numRows : Nat) : Nat := (toInt32 numRows).toNat

/-- The narrow or wide iteration index type. -/
inductive IndexWidth where
  | narrow
  | wide
deriving DecidableEq

/-- The index-range policy check as written at its source sites
(`Fill_MV::fill` lines 694-695, `Nrm2_MV::nrm2_squared` lines 982-983, the
single-pair `Dot_MV::dot` lines 401-402): `numRows < INT_MAX &&
numRows * numCols < INT_MAX`, evaluated in `size_type` arithmetic, so the
product wraps modulo `2 ^ 64`. -/
def selectWidth (numRows numCols : Nat) : IndexWidth :=
  if numRows < intMax ∧ (numRows * numCols) % sizeTypeModulus < intMax then
    IndexWidth.narrow
  else
    IndexWidth.wide

/-- Which reduction functor a dispatcher instantiates. -/
inductive FunctorChoice where
  | vector
  | unroll (n : Nat)
  | single
  | noCase
deriving DecidableEq

/-! Reduction functors for dot. -/

namespace V_Dot_Functor

/-- `operator() (i, sum)`: `sum += IPT::dot (m_x(i), m_y(i))`
(source lines 77-81). -/
def op (m_x m_y : Nat → Int) (i : Nat) (sum : Int) : Int :=
  sum + iptDot (m_x i) (m_y i)

/-- `init (update)`: `update = AT::zero ()` (source lines 83-86). -/
def init : Int := 0

/-- The whole single-vector dot reduction as invoked by the dispatchers:
the functor is constructed on `subview (r, 0)` and the two 1-D column
views, so `final` (source lines 96-100) writes the combined total to
`r(0)`. -/
def run (m_r : Nat → Int) (m_x m_y : Nat → Int) (numRows : Nat) : Nat → Int :=
  writeAt m_r 0 (seqReduce numRows (op m_x m_y) init)

end V_Dot_Functor

namespace MV_Dot_Right_FunctorVector

/-- `operator() (i, sum)`: for each `k < value_count`,
`sum[k] += IPT::dot (m_x(i,k), m_y(i,k))` (source lines 129-142). -/
def op (value_count : Nat) (m_x m_y : Nat → Nat → Int) (i : Nat)
    (sum : Nat → Int) : Nat → Int :=
  fun k => if k < value_count then sum k + iptDot (m_x i k) (m_y i k) else sum k

/-- `init (update)`: `update[k] = AT::zero ()` for each `k < value_count`
(source lines 144-156). -/
def init (value_count : Nat) (update : Nat → Int) : Nat → Int :=
  fun k => if k < value_count then 0 else update k

/-- `final (dst)`: `m_r(k) = dst[k]` for each `k < value_count`
(source lines 175-188). -/
def final (value_count : Nat) (m_r : Nat → Int) (dst : Nat → Int) : Nat → Int :=
  fun k => if k < value_count then dst k else m_r k

/-- The whole runtime-column-loop dot reduction as invoked by the
dispatcher: the constructor sets `value_count = x.dimension_1 ()`. -/
def run (r : Nat → Int) (X Y : MultiVector) : Nat → Int :=
  final X.numCols r
    (seqReduce X.numRows (op X.numCols X.entry Y.entry)
      (init X.numCols (fun _ => 0)))

end MV_Dot_Right_FunctorVector

namespace MV_Dot_Right_FunctorUnroll

/-- `operator() (i, sum)`: for each `k < UNROLL`,
`sum[k] += IPT::dot (m_x(i,k), m_y(i,k))` (source lines 219-228). -/
def op (UNROLL : Nat) (m_x m_y : Nat → Nat → Int) (i : Nat)
    (sum : Nat → Int) : Nat → Int :=
  fun k => if k < UNROLL then sum k + iptDot (m_x i k) (m_y i k) else sum k

/-- `init (update)`: `update[k] = AT::zero ()` for each `k < UNROLL`
(source lines 230-238). -/
def init (UNROLL : Nat) (update : Nat → Int) : Nat → Int :=
  fun k => if k < UNROLL then 0 else update k

/-- `final (dst)`: `m_r(k) = dst[k]` for each `k < UNROLL`
(source lines 253-262). -/
def final (UNROLL : Nat) (m_r : Nat → Int) (dst : Nat → Int) : Nat → Int :=
  fun k => if k < UNROLL then dst k else m_r k

/-- The whole compile-time-unrolled dot reduction as invoked by the
dispatcher, for the given `UNROLL` template argument. -/
def run (UNROLL : Nat) (r : Nat → Int) (X Y : MultiVector) : Nat → Int :=
  final UNROLL r
    (seqReduce X.numRows (op UNROLL X.entry Y.entry)
      (init UNROLL (fun _ => 0)))

end MV_Dot_Right_FunctorUnroll

namespace Dot_MV

/-- `Dot_MV::dot (r, X, Y)` (source lines 278-382): reads
`numRows = X.dimension_0 ()` and `numVecs = X.dimension_1 ()`; if
`numVecs > 16` runs `MV_Dot_Right_FunctorVector`, else switches on the
exact value of `numVecs` into `MV_Dot_Right_FunctorUnroll<16>` ...
`<2>`, with `numVecs == 1` routed through `V_Dot_Functor` on
`subview (r, 0)`, `subview (X, ALL, 0)`, `subview (Y, ALL, 0)`; a value
with no matching case (only `0` is possible) runs nothing.  Every branch
uses the functor's defaulted `SizeType = XMV::size_type`; no index-width
check appears in this dispatcher. -/
def dot (r : Nat → Int) (X Y : MultiVector) : Nat → Int :=
  if 16 < X.numCols then
    MV_Dot_Right_FunctorVector.run r X Y
  else
    match X.numCols with
    | 16 => MV_Dot_Right_FunctorUnroll.run 16 r X Y
    | 15 => MV_Dot_Right_FunctorUnroll.run 15 r X Y
    | 14 => MV_Dot_Right_FunctorUnroll.run 14 r X Y
    | 13 => MV_Dot_Right_FunctorUnroll.run 13 r X Y
    | 12 => MV_Dot_Right_FunctorUnroll.run 12 r X Y
    | 11 => MV_Dot_Right_FunctorUnroll.run 11 r X Y
    | 10 => MV_Dot_Right_FunctorUnroll.run 10 r X Y
    | 9 => MV_Dot_Right_FunctorUnroll.run 9 r X Y
    | 8 => MV_Dot_Right_FunctorUnroll.run 8 r X Y
    | 7 => MV_Dot_Right_FunctorUnroll.run 7 r X Y
    | 6 => MV_Dot_Right_FunctorUnroll.run 6 r X Y
    | 5 => MV_Dot_Right_FunctorUnroll.run 5 r X Y
    | 4 => MV_Dot_Right_FunctorUnroll.run 4 r X Y
    | 3 => MV_Dot_Right_FunctorUnroll.run 3 r X Y
    | 2 => MV_Dot_Right_FunctorUnroll.run 2 r X Y
    | 1 => V_Dot_Functor.run r (fun i => X.entry i 0) (fun i => Y.entry i 0)
             X.numRows
    | _ => r

/-- `Dot_MV::dot (r, X, X_col, Y, Y_col)` (source lines 386-414): takes
single-column views `subview (X, ALL, X_col)` and `subview (Y, ALL, Y_col)`
and runs `V_Dot_Functor` on them; the branch chooses `SizeType = int`
versus `SizeType = size_type` (recorded by `dotSinglePairWidth`), both
branches performing the same reduction. -/
def dotSinglePair (r : Nat → Int) (X : MultiVector) (X_col : Nat)
    (Y : MultiVector) (Y_col : Nat) : Nat → Int :=
  if X.numRows < intMax ∧
      (X.numRows * X.numCols) % sizeTypeModulus < intMax then
    V_Dot_Functor.run r (fun i => X.entry i X_col) (fun i => Y.entry i Y_col)
      X.numRows
  else
    V_Dot_Functor.run r (fun i => X.entry i X_col) (fun i => Y.entry i Y_col)
      X.numRows

/-- Index type the batched `Dot_MV::dot` iterates with (source lines
283-381): every functor is instantiated with the defaulted
`SizeType = XMV::size_type` (the wide type) and `parallel_reduce` is
called on the bare `numRows`; the dispatcher contains no `INT_MAX`
check. -/
def dotBatchedWidth (numRows numCols : Nat) : IndexWidth := IndexWidth.wide

/-- Index type chosen by the single-pair overload (source lines 399-413):
`numCols = X.dimension_1 ()` is the total column count of `X`, and the
check multiplies `numRows` by that total count. -/
def dotSinglePairWidth (numRows numCols : Nat) : IndexWidth :=
  if numRows < intMax ∧ (numRows * numCols) % sizeTypeModulus < intMax then
    IndexWidth.narrow
  else
    IndexWidth.wide

/-- Which functor the batched `Dot_MV::dot` instantiates for a given
`numVecs = X.dimension_1 ()` (source lines 283-381). -/
def dotFunctorChoice (numVecs : Nat) : FunctorChoice :=
  if 16 < numVecs then
    FunctorChoice.vector
  else
    match numVecs with
    | 16 => FunctorChoice.unroll 16
    | 15 => FunctorChoice.unroll 15
    | 14 => FunctorChoice.unroll 14
    | 13 => FunctorChoice.unroll 13
    | 12 => FunctorChoice.unroll 12
    | 11 => FunctorChoice.unroll 11
    | 10 => FunctorChoice.unroll 10
    | 9 => FunctorChoice.unroll 9
    | 8 => FunctorChoice.unroll 8
    | 7 => FunctorChoice.unroll 7
    | 6 => FunctorChoice.unroll 6
    | 5 => FunctorChoice.unroll 5
    | 4 => FunctorChoice.unroll 4
    | 3 => FunctorChoice.unroll 3
    | 2 => FunctorChoice.unroll 2
    | 1 => FunctorChoice.single
    | _ => FunctorChoice.noCase

end Dot_MV

/-! Squared 2-norm. -/

namespace MV_Nrm2Squared_Right_FunctorVector

/-- `operator() (i, sum)`: for each `j < value_count`,
`tmp = IPT::norm (m_x(i,j)); sum[j] += tmp * tmp` (source lines
901-915). -/
def op (value_count : Nat) (m_x : Nat → Nat → Int) (i : Nat)
    (sum : Nat → Int) : Nat → Int :=
  fun j =>
    if j < value_count then sum j + iptNorm (m_x i j) * iptNorm (m_x i j)
    else sum j

/-- `init (update)`: `update[j] = AT::zero ()` for each `j < value_count`
(source lines 917-930). -/
def init (value_count : Nat) (update : Nat → Int) : Nat → Int :=
  fun j => if j < value_count then 0 else update j

/-- `final (dst)`: `m_r(j) = dst[j]` for each `j < value_count`
(source lines 949-962). -/
def final (value_count : Nat) (m_r : Nat → Int) (dst : Nat → Int) : Nat → Int :=
  fun j => if j < value_count then dst j else m_r j

/-- The whole squared-norm reduction over the iteration range supplied by
the dispatcher's `RangePolicy` (`numIter` rows): the constructor sets
`value_count = x.dimension_1 ()`. -/
def run (numIter : Nat) (r : Nat → Int) (X : MultiVector) : Nat → Int :=
  final X.numCols r
    (seqReduce numIter (op X.numCols X.entry)
      (init X.numCols (fun _ => 0)))

end MV_Nrm2Squared_Right_FunctorVector

namespace Nrm2_MV

/-- `Nrm2_MV::nrm2_squared (r, X)` (source lines 976-995): checks
`numRows < INT_MAX && numRows * numCols < INT_MAX` and runs
`MV_Nrm2Squared_Right_FunctorVector` with `SizeType = int` in the first
branch and `SizeType = size_type` in the second; there is no column-count
switch — the same runtime-column-loop functor is used for every column
count.  BOTH branches construct `Kokkos::RangePolicy<execution_space,
int> (0, numRows)` (lines 985 and 991): in the first branch
`numRows < INT_MAX`, so the `int`-converted bound equals `numRows`; in the
second the bound is converted to `int` with wraparound, truncating the
iteration range (empty when the converted bound is non-positive). -/
def nrm2_squared (r : Nat → Int) (X : MultiVector) : Nat → Int :=
  if X.numRows < intMax ∧
      (X.numRows * X.numCols) % sizeTypeModulus < intMax then
    MV_Nrm2Squared_Right_FunctorVector.run X.numRows r X
  else
    MV_Nrm2Squared_Right_FunctorVector.run (int32RangeCount X.numRows) r X

/-- Functor `SizeType` chosen by `nrm2_squared` (source lines 982-994):
`int` when the check passes, `size_type` otherwise. -/
def nrm2FunctorWidth (numRows numCols : Nat) : IndexWidth :=
  if numRows < intMax ∧ (numRows * numCols) % sizeTypeModulus < intMax then
    IndexWidth.narrow
  else
    IndexWidth.wide

/-- Index type of the `RangePolicy` constructed by `nrm2_squared`: the
source writes `Kokkos::RangePolicy<execution_space, int>` in BOTH branches
(lines 985 and 991), so the iteration policy uses `int` even on the wide
path. -/
def nrm2PolicyWidth (numRows numCols : Nat) : IndexWidth :=
  if numRows < intMax ∧ (numRows * numCols) % sizeTypeModulus < intMax then
    IndexWidth.narrow
  else
    IndexWidth.narrow

/-- Which functor `nrm2_squared` instantiates for a given column count
(source lines 976-995): always `MV_Nrm2Squared_Right_FunctorVector`, the
runtime-column-loop functor. -/
def nrm2FunctorChoice (numVecs : Nat) : FunctorChoice := FunctorChoice.vector

end Nrm2_MV

/-! Fill. -/

namespace MV_FillFunctor

/-- `operator() (i)`: `X_(i,j) = val_` for each `j < numCols_`
(source lines 651-657), as a transformation of the entry function. -/
def op (numCols : Nat) (val : Int) (i : Nat) (e : Nat → Nat → Int) :
    Nat → Nat → Int :=
  seqReduce numCols
    (fun j ee => fun a b => if a = i ∧ b = j then val else ee a b) e

end MV_FillFunctor

namespace Fill_MV

/-- `Fill_MV::fill (X, val)` (source lines 687-705): checks
`numRows < INT_MAX && numRows * numCols < INT_MAX` and runs
`MV_FillFunctor` over `[0, numRows)` with `SizeType = int` in the first
branch and `SizeType = size_type` in the second, mutating `X` in place. -/
def fill (X : MultiVector) (val : Int) : MultiVector :=
  if X.numRows < intMax ∧
      (X.numRows * X.numCols) % sizeTypeModulus < intMax then
    { X with entry := seqReduce X.numRows (MV_FillFunctor.op X.numCols val) X.entry }
  else
    { X with entry := seqReduce X.numRows (MV_FillFunctor.op X.numCols val) X.entry }

/-- Index type chosen by `Fill_MV::fill` (source lines 694-704): both the
functor `SizeType` and the `RangePolicy` index type are `int` when the
check passes and `size_type` otherwise. -/
def fillWidth (numRows numCols : Nat) : IndexWidth :=
  if numRows < intMax ∧ (numRows * numCols) % sizeTypeModulus < intMax then
    IndexWidth.narrow
  else
    IndexWidth.wide

end Fill_MV

/-! Concrete example data from the spec: X = [[1,2],[3,4],[5,6]],
Y = [[1,0],[0,1],[1,1]] (3 rows by 2 columns). -/

/-- The spec's example multivector X. -/
def exX : MultiVector :=
  ⟨3, 2, fun i j => (([[1, 2], [3, 4], [5, 6]].getD i []).getD j 0 : Int)⟩

/-- The spec's example multivector Y. -/
def exY : MultiVector :=
  ⟨3, 2, fun i j => (([[1, 0], [0, 1], [1, 1]].getD i []).getD j 0 : Int)⟩

/-- A 0-row, 2-column multivector, for the empty-range boundary case. -/
def exZeroRows : MultiVector := ⟨0, 2, fun _ _ => 0⟩

/-- A 5-row, 0-column multivector with nonzero entries, for the
undefined-column-count boundary case. -/
def exZeroCols : MultiVector := ⟨5, 0, fun i j => (i : Int) + (j : Int)⟩

lemma seqReduce_vec_dot_op (c : Nat) (x y : Nat → Nat → Int) :
    ∀ (n : Nat) (acc : Nat → Int) (k : Nat), k < c →
      seqReduce n (MV_Dot_Right_FunctorVector.op c x y) acc k =
        acc k + sumRange n (fun i => iptDot (x i k) (y i k)) := by
  intro n
  induction n with
  | zero => intro acc k _; simp [seqReduce, sumRange]
  | succ m ih =>
      intro acc k hk
      simp only [seqReduce, MV_Dot_Right_FunctorVector.op, sumRange, if_pos hk]
      rw [ih acc k hk, add_assoc]

lemma vec_dot_reduction_eq_sum (c : Nat) (r : Nat → Int) (X Y : MultiVector)
    (k : Nat) (hk : k < c) :
    MV_Dot_Right_FunctorVector.final c r
      (seqReduce X.numRows (MV_Dot_Right_FunctorVector.op c X.entry Y.entry)
        (MV_Dot_Right_FunctorVector.init c (fun _ => 0))) k =
      sumRange X.numRows (fun i => iptDot (X.entry i k) (Y.entry i k)) := by
  simp only [MV_Dot_Right_FunctorVector.final, if_pos hk]
  rw [seqReduce_vec_dot_op c X.entry Y.entry X.numRows _ k hk]
  simp [MV_Dot_Right_FunctorVector.init, if_pos hk]

lemma vecRun_eq_sum (r : Nat → Int) (X Y : MultiVector) (k : Nat)
    (hk : k < X.numCols) :
    MV_Dot_Right_FunctorVector.run r X Y k =
      sumRange X.numRows (fun i => iptDot (X.entry i k) (Y.entry i k)) :=
  vec_dot_reduction_eq_sum X.numCols r X Y k hk

lemma unrollRun_eq_sum (u : Nat) (r : Nat → Int) (X Y : MultiVector) (k : Nat)
    (hk : k < u) :
    MV_Dot_Right_FunctorUnroll.run u r X Y k =
      sumRange X.numRows (fun i => iptDot (X.entry i k) (Y.entry i k)) :=
  vec_dot_reduction_eq_sum u r X Y k hk

lemma seqReduce_v_dot_op (x y : Nat → Int) :
    ∀ (n : Nat) (a : Int),
      seqReduce n (V_Dot_Functor.op x y) a =
        a + sumRange n (fun i => iptDot (x i) (y i)) := by
  intro n
  induction n with
  | zero => intro a; simp [seqReduce, sumRange]
  | succ m ih =>
      intro a
      simp only [seqReduce, V_Dot_Functor.op, sumRange]
      rw [ih a, add_assoc]

lemma vRun_eq_sum (r : Nat → Int) (x y : Nat → Int) (n : Nat) :
    V_Dot_Functor.run r x y n 0 = sumRange n (fun i => iptDot (x i) (y i)) := by
  simp [V_Dot_Functor.run, writeAt, seqReduce_v_dot_op, V_Dot_Functor.init]

lemma vRun_frame (r : Nat → Int) (x y : Nat → Int) (n : Nat) (k : Nat)
    (hk : k ≠ 0) : V_Dot_Functor.run r x y n k = r k := by
  simp [V_Dot_Functor.run, writeAt, hk]

lemma dot_eq_sum (r : Nat → Int) (X Y : MultiVector) (k : Nat)
    (hk : k < X.numCols) :
    Dot_MV.dot r X Y k =
      sumRange X.numRows (fun i => iptDot (X.entry i k) (Y.entry i k)) := by
  obtain ⟨rows, cols, e⟩ := X
  change k < cols at hk
  unfold Dot_MV.dot
  dsimp only
  by_cases h16 : 16 < cols
  · rw [if_pos h16]
    exact vecRun_eq_sum r ⟨rows, cols, e⟩ Y k hk
  · rw [if_neg h16]
    have hle : cols ≤ 16 := by omega
    have hpos : 1 ≤ cols := by omega
    interval_cases cols
    · have hk0 : k = 0 := by omega
      subst hk0
      exact vRun_eq_sum r (fun i => e i 0) (fun i => Y.entry i 0) rows
    all_goals exact unrollRun_eq_sum _ r ⟨rows, _, e⟩ Y k (by omega)

lemma seqReduce_nrm2_op (c : Nat) (x : Nat → Nat → Int) :
    ∀ (n : Nat) (acc : Nat → Int) (k : Nat), k < c →
      seqReduce n (MV_Nrm2Squared_Right_FunctorVector.op c x) acc k =
        acc k + sumRange n (fun i => iptNorm (x i k) * iptNorm (x i k)) := by
  intro n
  induction n with
  | zero => intro acc k _; simp [seqReduce, sumRange]
  | succ m ih =>
      intro acc k hk
      simp only [seqReduce, MV_Nrm2Squared_Right_FunctorVector.op, sumRange,
        if_pos hk]
      rw [ih acc k hk, add_assoc]

lemma nrm2Run_eq_sum (n : Nat) (r : Nat → Int) (X : MultiVector) (k : Nat)
    (hk : k < X.numCols) :
    MV_Nrm2Squared_Right_FunctorVector.run n r X k =
      sumRange n (fun i => iptNorm (X.entry i k) * iptNorm (X.entry i k)) := by
  unfold MV_Nrm2Squared_Right_FunctorVector.run
  simp only [MV_Nrm2Squared_Right_FunctorVector.final, if_pos hk]
  rw [seqReduce_nrm2_op X.numCols X.entry n _ k hk]
  simp [MV_Nrm2Squared_Right_FunctorVector.init, if_pos hk]

lemma nrm2_eq_sum (r : Nat → Int) (X : MultiVector) (k : Nat)
    (h1 : X.numRows < intMax)
    (h2 : (X.numRows * X.numCols) % sizeTypeModulus < intMax)
    (hk : k < X.numCols) :
    Nrm2_MV.nrm2_squared r X k =
      sumRange X.numRows (fun i => iptNorm (X.entry i k) * iptNorm (X.entry i k)) := by
  unfold Nrm2_MV.nrm2_squared
  rw [if_pos ⟨h1, h2⟩]
  exact nrm2Run_eq_sum X.numRows r X k hk

lemma fill_op_entry (cols : Nat) (v : Int) (i : Nat) (e : Nat → Nat → Int)
    (a b : Nat) :
    MV_FillFunctor.op cols v i e a b = if a = i ∧ b < cols then v else e a b := by
  induction cols with
  | zero => simp [MV_FillFunctor.op, seqReduce]
  | succ m ih =>
      have hstep : MV_FillFunctor.op (m + 1) v i e a b =
          if a = i ∧ b = m then v else MV_FillFunctor.op m v i e a b := rfl
      rw [hstep, ih]
      split_ifs <;> first | rfl | omega

lemma fill_entries (rows cols : Nat) (v : Int) (e : Nat → Nat → Int)
    (i j : Nat) :
    seqReduce rows (MV_FillFunctor.op cols v) e i j =
      if i < rows ∧ j < cols then v else e i j := by
  induction rows with
  | zero => simp [seqReduce]
  | succ m ih =>
      have hstep : seqReduce (m + 1) (MV_FillFunctor.op cols v) e i j =
          MV_FillFunctor.op cols v m
            (seqReduce m (MV_FillFunctor.op cols v) e) i j := rfl
      rw [hstep, fill_op_entry, ih]
      split_ifs <;> first | rfl | omega

lemma fill_entry (X : MultiVector) (v : Int) (i j : Nat) :
    (Fill_MV.fill X v).entry i j =
      if i < X.numRows ∧ j < X.numCols then v else X.entry i j := by
  unfold Fill_MV.fill
  rw [ite_self]
  exact fill_entries X.numRows X.numCols v X.entry i j

/-! Claim theorems. -/

/-- C1: for multivectors `X` and `Y` of equal shape, `Dot_MV::dot (r, X, Y)`
stores in `r(k)`, for each column `k`, the sequential inner product
`sum over i of IPT::dot (X(i,k), Y(i,k))` (exact equality in the exact
integer model of real arithmetic, hence within any tolerance). -/
theorem dot_mv_correct :
    ∀ (r : Nat → Int) (X Y : MultiVector) (k : Nat),
      X.numRows = Y.numRows → X.numCols = Y.numCols → k < X.numCols →
      Dot_MV.dot r X Y k =
        sumRange X.numRows (fun i => iptDot (X.entry i k) (Y.entry i k)) :=
  fun r X Y k _ _ hk => dot_eq_sum r X Y k hk

/-- Witness for C1 at the spec's example: X = [[1,2],[3,4],[5,6]],
Y = [[1,0],[0,1],[1,1]] gives result column 0 = 6 and column 1 = 10. -/
theorem dot_mv_correct_witness :
    Dot_MV.dot (fun _ => 0) exX exY 0 = 6 ∧
      Dot_MV.dot (fun _ => 0) exX exY 1 = 10 :=
  ⟨(dot_mv_correct (fun _ => 0) exX exY 0 rfl rfl (by decide)).trans (by decide),
   (dot_mv_correct (fun _ => 0) exX exY 1 rfl rfl (by decide)).trans (by decide)⟩

/-- C3: after `Fill_MV::fill (X, v)`, every in-shape element of `X`
equals `v` (both index-width branches perform the same writes). -/
theorem fill_sets_every_entry :
    ∀ (X : MultiVector) (v : Int) (i j : Nat),
      i < X.numRows → j < X.numCols → (Fill_MV.fill X v).entry i j = v := by
  intro X v i j hi hj
  rw [fill_entry]
  simp [hi, hj]

/-- Witness for C3: filling the 3-by-2 example with 7 makes entry (2,1)
equal 7. -/
theorem fill_sets_every_entry_witness :
    (Fill_MV.fill exX 7).entry 2 1 = 7 :=
  fill_sets_every_entry exX 7 2 1 (by decide) (by decide)

/-- C4 counterexample: at the small shape 3 rows by 2 columns — which fits
the narrow index type (`3 < INT_MAX` and `3 * 2 < INT_MAX`) — the batched
`Dot_MV::dot` dispatcher nevertheless iterates with the wide defaulted
`SizeType`, so "narrow if and only if it fits" is false for the dot
dispatcher. -/
theorem dot_dispatcher_ignores_selector_cex :
    Dot_MV.dotBatchedWidth 3 2 = IndexWidth.wide ∧
      3 < intMax ∧ 3 * 2 < intMax := by decide

/-- C4 amended: the `nrm2_squared` dispatcher chooses its functor's index
type narrow exactly when `numRows < INT_MAX` and `numRows * numCols <
INT_MAX` (in wrapping `size_type` arithmetic), but its range policy is
built with the narrow type `int` in both branches; the batched
`Dot_MV::dot` dispatcher applies no such check and always iterates with
the wide defaulted `SizeType`. -/
theorem index_width_selection_amended :
    ∀ numRows numCols : Nat,
      (Nrm2_MV.nrm2FunctorWidth numRows numCols = IndexWidth.narrow ↔
        (numRows < intMax ∧ (numRows * numCols) % sizeTypeModulus < intMax)) ∧
      Nrm2_MV.nrm2PolicyWidth numRows numCols = IndexWidth.narrow ∧
      Dot_MV.dotBatchedWidth numRows numCols = IndexWidth.wide := by
  intro a b
  refine ⟨?_, ?_, rfl⟩
  · unfold Nrm2_MV.nrm2FunctorWidth
    split_ifs with h
    · simp [h]
    · simp [h]
  · unfold Nrm2_MV.nrm2PolicyWidth
    rw [ite_self]

/-- C5 counterexample: at column count 2 the `nrm2_squared` dispatcher
instantiates the runtime-column-loop functor, not the matching
compile-time-unrolled variant. -/
theorem nrm2_no_unroll_cex :
    Nrm2_MV.nrm2FunctorChoice 2 = FunctorChoice.vector ∧
      FunctorChoice.vector ≠ FunctorChoice.unroll 2 := by decide

/-- C5 amended: the dot dispatcher branches as claimed (`c > 16` gives the
runtime-loop functor, `2 ≤ c ≤ 16` the matching unrolled variant, `c = 1`
the single-vector functor), but the `nrm2_squared` dispatcher uses the
runtime-column-loop functor for every column count. -/
theorem functor_choice_amended :
    ∀ c : Nat, 1 ≤ c →
      Dot_MV.dotFunctorChoice c =
        (if 16 < c then FunctorChoice.vector
         else if c = 1 then FunctorChoice.single
         else FunctorChoice.unroll c) ∧
      Nrm2_MV.nrm2FunctorChoice c = FunctorChoice.vector := by
  intro c hc
  refine ⟨?_, rfl⟩
  by_cases h16 : 16 < c
  · simp [Dot_MV.dotFunctorChoice, h16]
  · have hle : c ≤ 16 := by omega
    interval_cases c <;> decide

/-- Witness for C5 amended at `c = 3`: the dot dispatcher picks the
3-column unrolled functor and `nrm2_squared` the vectorized one. -/
theorem functor_choice_amended_witness :
    Dot_MV.dotFunctorChoice 3 = FunctorChoice.unroll 3 ∧
      Nrm2_MV.nrm2FunctorChoice 3 = FunctorChoice.vector :=
  ⟨(functor_choice_amended 3 (by decide)).1.trans (by decide),
   (functor_choice_amended 3 (by decide)).2⟩

/-- C6 counterexample: with 2^30 rows and 4 total columns, the single-pair
overload's check selects the wide index type even though the row count
alone (column count forced to 1) fits the narrow type — so its
narrow/wide decision does depend on the total column count of `X`. -/
theorem single_pair_width_uses_total_cols_cex :
    Dot_MV.dotSinglePairWidth 1073741824 4 = IndexWidth.wide ∧
      1073741824 < intMax ∧
      Dot_MV.dotSinglePairWidth 1073741824 1 = IndexWidth.narrow := by decide

/-- C6 amended: the single-pair overload takes single-column views at the
requested indices, routes them through the single-vector dot functor
(writing the inner product of columns `X(:,xc)` and `Y(:,yc)` to `r(0)`
and leaving other result slots unchanged), and applies its own independent
index check using the row count and the TOTAL column count
`X.dimension_1 ()` — not a column count forced to 1. -/
theorem single_pair_dot_amended :
    ∀ (r : Nat → Int) (X Y : MultiVector) (xc yc : Nat),
      X.numRows = Y.numRows →
      (Dot_MV.dotSinglePair r X xc Y yc 0 =
        sumRange X.numRows (fun i => iptDot (X.entry i xc) (Y.entry i yc))) ∧
      (∀ kk, kk ≠ 0 → Dot_MV.dotSinglePair r X xc Y yc kk = r kk) ∧
      (Dot_MV.dotSinglePairWidth X.numRows X.numCols = IndexWidth.narrow ↔
        (X.numRows < intMax ∧
          (X.numRows * X.numCols) % sizeTypeModulus < intMax)) := by
  intro r X Y xc yc hrows
  refine ⟨?_, ?_, ?_⟩
  · unfold Dot_MV.dotSinglePair
    rw [ite_self]
    exact vRun_eq_sum r (fun i => X.entry i xc) (fun i => Y.entry i yc) X.numRows
  · intro kk hkk
    unfold Dot_MV.dotSinglePair
    rw [ite_self]
    exact vRun_frame r _ _ X.numRows kk hkk
  · unfold Dot_MV.dotSinglePairWidth
    split_ifs with h
    · simp [h]
    · simp [h]

/-- Witness for C6 amended at the spec's example, columns 1 of X and 0 of
Y: the single-pair dot is 2*1 + 4*0 + 6*1 = 8. -/
theorem single_pair_dot_amended_witness :
    Dot_MV.dotSinglePair (fun _ => 99) exX 1 exY 0 0 = 8 ∧
      Dot_MV.dotSinglePair (fun _ => 99) exX 1 exY 0 3 = 99 :=
  ⟨((single_pair_dot_amended (fun _ => 99) exX exY 1 0 rfl).1).trans (by decide),
   (single_pair_dot_amended (fun _ => 99) exX exY 1 0 rfl).2.1 3 (by decide)⟩

/-- C7 counterexample: with 2 rows and 2^63 columns (both representable in
the 64-bit wide size type), the multiplication in the check wraps to 0
modulo 2^64, so the narrow index type is selected although
`rows * columns = 2^64` does not fit it: the overflow check itself can
overflow. -/
theorem overflow_check_wraps_cex :
    selectWidth 2 9223372036854775808 = IndexWidth.narrow ∧
      ¬ 2 * 9223372036854775808 < intMax ∧
      2 < sizeTypeModulus ∧ 9223372036854775808 < sizeTypeModulus := by decide

/-- C7 amended: whenever the true product `rows * columns` fits the wide
size type the check does not wrap, and the narrow index type is selected
exactly when both `rows` and `rows * columns` fit the narrow type; when
the true product reaches 2^64 the multiplication wraps and the narrow
type can be selected spuriously. -/
theorem overflow_check_amended :
    ∀ numRows numCols : Nat, numRows * numCols < sizeTypeModulus →
      (selectWidth numRows numCols = IndexWidth.narrow ↔
        (numRows < intMax ∧ numRows * numCols < intMax)) := by
  intro a b h
  unfold selectWidth
  rw [Nat.mod_eq_of_lt h]
  split_ifs with hc
  · simp [hc]
  · simp [hc]

/-- Witness for C7 amended at rows = 3, columns = 2: no wrap, and the
narrow type is selected since 6 fits. -/
theorem overflow_check_amended_witness :
    (3 : Nat) * 2 < sizeTypeModulus ∧
      (selectWidth 3 2 = IndexWidth.narrow ↔ (3 < intMax ∧ 3 * 2 < intMax)) :=
  ⟨by decide, overflow_check_amended 3 2 (by decide)⟩

/-- C8: for a column count `c` between 1 and 16 and identical inputs, the
compile-time-unrolled dot reduction path with `UNROLL = c` and the generic
runtime-column-loop dot reduction path produce equal per-column results
(the two functors perform the same accumulation, the unrolled one with a
statically known trip count). -/
theorem unroll_matches_vector_path :
    ∀ (c : Nat) (r : Nat → Int) (X Y : MultiVector) (k : Nat),
      1 ≤ c → c ≤ 16 → c = X.numCols →
      MV_Dot_Right_FunctorUnroll.run c r X Y k =
        MV_Dot_Right_FunctorVector.run r X Y k := by
  intro c r X Y k h1 h16 hc
  subst hc
  rfl

/-- Witness for C8 at `c = 2` on the spec's example: both paths give 6 in
column 0. -/
theorem unroll_matches_vector_path_witness :
    MV_Dot_Right_FunctorUnroll.run 2 (fun _ => 0) exX exY 0 =
      MV_Dot_Right_FunctorVector.run (fun _ => 0) exX exY 0 ∧
      MV_Dot_Right_FunctorUnroll.run 2 (fun _ => 0) exX exY 0 = 6 :=
  ⟨unroll_matches_vector_path 2 (fun _ => 0) exX exY 0 (by decide) (by decide) rfl,
   by decide⟩

/-- C9: with 0 rows, the dot and squared-norm reductions write the exact
additive zero into the result entry of every column (the reduction
primitive still runs `init` and `final`), and `fill` leaves the
multivector unchanged. -/
theorem zero_rows_identity :
    ∀ (r rn : Nat → Int) (X Y : MultiVector) (v : Int) (k : Nat),
      X.numRows = 0 → k < X.numCols →
      Dot_MV.dot r X Y k = 0 ∧ Nrm2_MV.nrm2_squared rn X k = 0 ∧
        Fill_MV.fill X v = X := by
  intro r rn X Y v k h0 hk
  obtain ⟨rows, cols, e⟩ := X
  change rows = 0 at h0
  change k < cols at hk
  subst h0
  refine ⟨?_, ?_, ?_⟩
  · rw [dot_eq_sum r ⟨0, cols, e⟩ Y k hk]; rfl
  · have h1 : (⟨0, cols, e⟩ : MultiVector).numRows < intMax := by
      show (0 : Nat) < intMax
      decide
    have h2 : ((⟨0, cols, e⟩ : MultiVector).numRows *
        (⟨0, cols, e⟩ : MultiVector).numCols) % sizeTypeModulus < intMax := by
      show (0 * cols) % sizeTypeModulus < intMax
      rw [Nat.zero_mul]
      decide
    rw [nrm2_eq_sum rn ⟨0, cols, e⟩ k h1 h2 hk]; rfl
  · unfold Fill_MV.fill
    rw [ite_self]
    rfl

/-- Witness for C9 on a 0-row, 2-column multivector. -/
theorem zero_rows_identity_witness :
    Dot_MV.dot (fun _ => 99) exZeroRows exZeroRows 1 = 0 ∧
      Nrm2_MV.nrm2_squared (fun _ => 99) exZeroRows 1 = 0 ∧
      Fill_MV.fill exZeroRows 7 = exZeroRows :=
  zero_rows_identity (fun _ => 99) (fun _ => 99) exZeroRows exZeroRows 7 1 rfl
    (by decide)

/-- C10: with 0 columns the batched dot dispatcher's column-count switch
has no matching case, so no reduction functor runs and the result view is
returned unchanged; `fill`'s inner column loop is empty, so the
destination multivector is unchanged. -/
theorem zero_cols_frame :
    ∀ (r : Nat → Int) (X Y : MultiVector) (v : Int),
      X.numCols = 0 →
      Dot_MV.dot r X Y = r ∧
        Dot_MV.dotFunctorChoice X.numCols = FunctorChoice.noCase ∧
        Fill_MV.fill X v = X := by
  intro r X Y v h0
  obtain ⟨rows, cols, e⟩ := X
  change cols = 0 at h0
  subst h0
  refine ⟨rfl, rfl, ?_⟩
  unfold Fill_MV.fill
  rw [ite_self]
  exact congrArg (MultiVector.mk rows 0)
    (funext fun i => funext fun j => by rw [fill_entries]; simp)

/-- Witness for C10 on a 5-row, 0-column multivector with nonzero
entries. -/
theorem zero_cols_frame_witness :
    Dot_MV.dot (fun _ => 42) exZeroCols exZeroCols = (fun _ => (42 : Int)) ∧
      Dot_MV.dotFunctorChoice exZeroCols.numCols = FunctorChoice.noCase ∧
      Fill_MV.fill exZeroCols 7 = exZeroCols :=
  zero_cols_frame (fun _ => 42) exZeroCols exZeroCols 7 rfl

end KokkosBlasModel
